import Mathlib

/-!
Shallow embedding of the `weave` package (Sail fan-out-join and the Weaver
bounded worker pool) as small-step interleaving semantics, together with
theorems settling the specification's claims about it.

Tasks are opaque to the orchestrator: a task invocation is modelled by the
outcome it produces (success, an error value, or a panic payload).  Error
values are strings; the cancellation error `ctx.Err()` is the distinguished
string `"context canceled"`.  Go's `select` over several ready channel cases
chooses among them nondeterministically, so every ready case appears as a
separate transition rule.
-/

namespace Weave

/-- Error values (`error` in Go), rendered by their message text. -/
abbrev Err := String

/-- `context.Canceled`, the value of `ctx.Err()` once the context is canceled. -/
def ctxCanceledErr : Err := "context canceled"

/-- The observable behaviour of one task invocation `task(ctx)`:
it returns `nil`, returns a non-nil error, or panics with a payload. -/
inductive Outcome
  | ok
  | fail (e : Err)
  | panicked (payload : String)
deriving DecidableEq, Repr

/-- The error a recovered panic is converted into:
`fmt.Errorf("panic recovered: %v", r)`. -/
def panicMsg (payload : String) : Err := "panic recovered: " ++ payload

/-- The write-once failure slot formed by a `sync.Once` guarding a send into
the capacity-1 channel `errChan`, plus the channel's closed flag.
`used` is the `once` having fired, `buf` the value buffered in the channel. -/
structure OnceChan where
  used : Bool
  buf : Option Err
  closed : Bool
deriving DecidableEq, Repr

/-- A fresh slot: `errChan := make(chan error, 1)` and an unfired `once`. -/
def OnceChan.init : OnceChan := ⟨false, none, false⟩

/-- `sendErr(err)`: `once.Do(func() { errChan <- err })`.  The first call
buffers its error; every later call is a no-op. -/
def OnceChan.sendErr (c : OnceChan) (e : Err) : OnceChan :=
  if c.used then c else { c with used := true, buf := some e }

/-- The effect on the failure slot of a task invocation finishing with
outcome `t`: a returned non-nil error is sent with `sendErr`, a panic is
recovered and sent as `panicMsg`, success sends nothing. -/
def OnceChan.record (c : OnceChan) (t : Outcome) : OnceChan :=
  match t with
  | .ok => c
  | .fail e => c.sendErr e
  | .panicked p => c.sendErr (panicMsg p)

/-! ## Sail -/

/-- The shared state of one `Sail(ctx, tasks...)` call.

* `pending`: tasks the dispatch loop has not yet reached, in order;
* `running`: tasks dispatched to goroutines and not yet finished;
* `errChan`: the failure slot (with the channel's closed flag, set by the
  goroutine that runs `wg.Wait(); close(errChan)`);
* `canceled`: whether `ctx.Done()` has fired;
* `ret`: `none` while the final `select` has not resolved, otherwise
  `some r` where `r` is the value `Sail` returns (`none` = nil error). -/
structure SailState where
  pending : List Outcome
  running : List Outcome
  errChan : OnceChan
  canceled : Bool
  ret : Option (Option Err)
deriving DecidableEq, Repr

/-- The state at the top of `Sail`, before the dispatch loop. -/
def SailState.init (tasks : List Outcome) : SailState :=
  ⟨tasks, [], OnceChan.init, false, none⟩

/-- One interleaved step of `Sail` and its goroutines.  `cancelable` says
whether the surrounding program may still cancel the context during the run
(`false` models a context that is never canceled). -/
inductive SailStep (cancelable : Bool) : SailState → SailState → Prop
  /-- Dispatch loop, `ctx.Err() != nil` branch: skip the task, `wg.Done()`. -/
  | skip {s : SailState} {t : Outcome} {rest : List Outcome} :
      s.pending = t :: rest → s.canceled = true →
      SailStep cancelable s { s with pending := rest }
  /-- Dispatch loop: start the task's goroutine. -/
  | dispatch {s : SailState} {t : Outcome} {rest : List Outcome} :
      s.pending = t :: rest → s.canceled = false →
      SailStep cancelable s
        { s with pending := rest, running := s.running ++ [t] }
  /-- A dispatched task finishes: its error or recovered panic goes through
  `sendErr`, then `wg.Done()`. -/
  | complete {s : SailState} {a : List Outcome} {t : Outcome} {b : List Outcome} :
      s.running = a ++ t :: b →
      SailStep cancelable s
        { s with running := a ++ b, errChan := s.errChan.record t }
  /-- The surrounding program cancels the context. -/
  | cancel {s : SailState} :
      cancelable = true → s.canceled = false →
      SailStep cancelable s { s with canceled := true }
  /-- The join goroutine: `wg.Wait()` has returned, `close(errChan)`. -/
  | closeChan {s : SailState} :
      s.pending = [] → s.running = [] → s.errChan.closed = false →
      SailStep cancelable s
        { s with errChan := { s.errChan with closed := true } }
  /-- Final `select`, `err := <-errChan` case with a buffered value:
  return the recorded failure. -/
  | resolveErr {s : SailState} {e : Err} :
      s.ret = none → s.pending = [] → s.errChan.buf = some e →
      SailStep cancelable s
        { s with ret := some (some e),
                 errChan := { s.errChan with buf := none } }
  /-- Final `select`, `err := <-errChan` case on the closed empty channel:
  receive the zero value, return nil. -/
  | resolveClosed {s : SailState} :
      s.ret = none → s.pending = [] → s.errChan.buf = none →
      s.errChan.closed = true →
      SailStep cancelable s { s with ret := some none }
  /-- Final `select`, `<-ctx.Done()` case: return `ctx.Err()`. -/
  | resolveCancel {s : SailState} :
      s.ret = none → s.pending = [] → s.canceled = true →
      SailStep cancelable s { s with ret := some (some ctxCanceledErr) }

/-- Reachability between `Sail` states by interleaved steps. -/
def SailReach (cancelable : Bool) : SailState → SailState → Prop :=
  Relation.ReflTransGen (SailStep cancelable)

/-! ## Weaver -/

/-- Where one worker goroutine is in its loop:
at the `select` pulling work (`idle`), holding a task pulled from the queue
but before `execute`'s cancellation check (`got`), inside the invocation
`task(ctx)` (`run`), or returned (`exited`). -/
inductive WPhase
  | idle
  | got (t : Outcome)
  | run (t : Outcome)
  | exited
deriving DecidableEq, Repr

/-- `true` exactly for a worker currently inside a task invocation. -/
def WPhase.isRun : WPhase → Bool
  | .run _ => true
  | _ => false

/-- Where one `Wait` caller is.

* `entry`: before the `isClosed` load / compare-and-swap;
* `recvWait`: a loser blocked at `<-w.errChan`;
* `lost r`: a loser returned with value `r`;
* `closeQ`, `wgWait`, `drainSel`: the winner about to `close(w.taskQueue)`,
  at `w.wg.Wait()`, and at the draining `select` with `default`;
* `won r`: the winner returned with value `r`. -/
inductive WaitPc
  | entry
  | recvWait
  | lost (r : Option Err)
  | closeQ
  | wgWait
  | drainSel
  | won (r : Option Err)
deriving DecidableEq, Repr

/-- `true` for a `Wait` caller that won the `CompareAndSwap` and is (or was)
performing the shutdown. -/
def WaitPc.isWinnerPhase : WaitPc → Bool
  | .closeQ => true
  | .wgWait => true
  | .drainSel => true
  | .won _ => true
  | _ => false

/-- The shared state of one `Weaver` together with the positions of its
worker goroutines and of the `Wait` callers modelled in the run.

* `qcap`: capacity of the buffered `taskQueue` (the configured concurrency);
* `queue` / `qClosed`: the buffered tasks and whether `close(taskQueue)` ran;
* `errChan`: the failure slot (`errOnce` + capacity-1 `errChan`);
* `isClosed`: the `atomic.Bool`;
* `canceled`: whether `workerCtx.Done()` has fired (parent cancellation or
  the winner's deferred `cancel()`);
* `finalErr`: the `finalErr` field, zero value `nil`. -/
structure Weaver where
  qcap : Nat
  workers : List WPhase
  queue : List Outcome
  qClosed : Bool
  errChan : OnceChan
  isClosed : Bool
  canceled : Bool
  finalErr : Option Err
  waiters : List WaitPc
deriving DecidableEq, Repr

/-- The state `NewWeaver(ctx, c)` hands back: `c` worker goroutines at their
`select`, an empty queue of capacity `c`, a fresh failure slot.  `k` is the
number of `Wait` callers the run models. -/
def Weaver.init (c : Nat) (k : Nat) : Weaver :=
  ⟨c, List.replicate c .idle, [], false, OnceChan.init, false, false, none,
    List.replicate k .entry⟩

/-- One interleaved step of the Weaver's workers, its `Wait` callers, a
producer calling `Add`, or the parent context. -/
inductive WeaverStep : Weaver → Weaver → Prop
  /-- A producer's `w.taskQueue <- task` completes: the channel is open and
  has buffer space.  (The `isClosed` load that precedes it in `Add` is
  modelled by `Weaver.Add`; a send racing past it is still possible.) -/
  | submit {s : Weaver} (t : Outcome) :
      s.qClosed = false → s.queue.length < s.qcap →
      WeaverStep s { s with queue := s.queue ++ [t] }
  /-- Worker `select`, queue case with a buffered task (possible even when
  `ctx.Done()` is also ready, and after `close(taskQueue)` while items
  remain buffered). -/
  | pull {s : Weaver} {i : Nat} {t : Outcome} {rest : List Outcome} :
      s.workers[i]? = some .idle → s.queue = t :: rest →
      WeaverStep s { s with workers := s.workers.set i (.got t), queue := rest }
  /-- Worker `select`, queue case on the closed empty channel: `ok = false`,
  the worker returns (`wg.Done()`). -/
  | exitClose {s : Weaver} {i : Nat} :
      s.workers[i]? = some .idle → s.queue = [] → s.qClosed = true →
      WeaverStep s { s with workers := s.workers.set i .exited }
  /-- Worker `select`, `<-ctx.Done()` case: the worker returns. -/
  | exitCancel {s : Weaver} {i : Nat} :
      s.workers[i]? = some .idle → s.canceled = true →
      WeaverStep s { s with workers := s.workers.set i .exited }
  /-- `execute`: the `ctx.Err() != nil` check passes and `task(ctx)` is
  invoked — the task begins executing. -/
  | beginExec {s : Weaver} {i : Nat} {t : Outcome} :
      s.workers[i]? = some (.got t) → s.canceled = false →
      WeaverStep s { s with workers := s.workers.set i (.run t) }
  /-- `execute`: the `ctx.Err() != nil` check observes cancellation and
  returns without invoking the task; the worker loops back to its `select`. -/
  | dropTask {s : Weaver} {i : Nat} {t : Outcome} :
      s.workers[i]? = some (.got t) → s.canceled = true →
      WeaverStep s { s with workers := s.workers.set i .idle }
  /-- The task invocation finishes: its error or recovered panic goes
  through `w.sendErr`, and the worker loops back to its `select`. -/
  | finish {s : Weaver} {i : Nat} {t : Outcome} :
      s.workers[i]? = some (.run t) →
      WeaverStep s { s with workers := s.workers.set i .idle,
                            errChan := s.errChan.record t }
  /-- The parent context is canceled by the surrounding program. -/
  | parentCancel {s : Weaver} :
      s.canceled = false →
      WeaverStep s { s with canceled := true }
  /-- `Wait`, fast path or failed `CompareAndSwap`: `isClosed` is already
  `true`, the caller proceeds to `<-w.errChan` as a loser. -/
  | waitLose {s : Weaver} {j : Nat} :
      s.waiters[j]? = some .entry → s.isClosed = true →
      WeaverStep s { s with waiters := s.waiters.set j .recvWait }
  /-- `Wait`: `isClosed.CompareAndSwap(false, true)` succeeds — this caller
  becomes the closer. -/
  | waitWin {s : Weaver} {j : Nat} :
      s.waiters[j]? = some .entry → s.isClosed = false →
      WeaverStep s { s with isClosed := true,
                            waiters := s.waiters.set j .closeQ }
  /-- A loser's `<-w.errChan` receives the buffered failure (removing it
  from the channel); the loser then returns the current `finalErr`. -/
  | loseRecvBuf {s : Weaver} {j : Nat} {e : Err} :
      s.waiters[j]? = some .recvWait → s.errChan.buf = some e →
      WeaverStep s { s with errChan := { s.errChan with buf := none },
                            waiters := s.waiters.set j (.lost s.finalErr) }
  /-- A loser's `<-w.errChan` receives the zero value from the closed empty
  channel; the loser returns `finalErr`. -/
  | loseRecvClosed {s : Weaver} {j : Nat} :
      s.waiters[j]? = some .recvWait → s.errChan.buf = none →
      s.errChan.closed = true →
      WeaverStep s { s with waiters := s.waiters.set j (.lost s.finalErr) }
  /-- The winner runs `close(w.taskQueue)`. -/
  | winCloseQ {s : Weaver} {j : Nat} :
      s.waiters[j]? = some .closeQ →
      WeaverStep s { s with qClosed := true,
                            waiters := s.waiters.set j .wgWait }
  /-- The winner's `w.wg.Wait()` returns: every worker has exited. -/
  | winWgWait {s : Weaver} {j : Nat} :
      s.waiters[j]? = some .wgWait → s.workers.all (· = .exited) = true →
      WeaverStep s { s with waiters := s.waiters.set j .drainSel }
  /-- The winner's draining `select` finds a buffered failure: record it in
  `finalErr`, then return it, running the deferred `cancel()` and
  `close(w.errChan)`. -/
  | winDrainSome {s : Weaver} {j : Nat} {e : Err} :
      s.waiters[j]? = some .drainSel → s.errChan.buf = some e →
      WeaverStep s { s with errChan := { s.errChan with buf := none, closed := true },
                            canceled := true, finalErr := some e,
                            waiters := s.waiters.set j (.won (some e)) }
  /-- The winner's draining `select` takes `default` (no buffered failure):
  return the unchanged `finalErr`, running the deferred `cancel()` and
  `close(w.errChan)`. -/
  | winDrainNone {s : Weaver} {j : Nat} :
      s.waiters[j]? = some .drainSel → s.errChan.buf = none →
      WeaverStep s { s with errChan := { s.errChan with closed := true },
                            canceled := true,
                            waiters := s.waiters.set j (.won s.finalErr) }

/-- Reachability between `Weaver` states by interleaved steps. -/
def WeaverReach : Weaver → Weaver → Prop :=
  Relation.ReflTransGen WeaverStep

/-- `NewWeaver(ctx, concurrency)`: a configuration error for a non-positive
concurrency, otherwise the initialized pool (`k` as in `Weaver.init`). -/
def NewWeaver (concurrency : Int) (k : Nat) : Except Err Weaver :=
  if concurrency ≤ 0 then .error "weave: concurrency must be greater than 0"
  else .ok (Weaver.init concurrency.toNat k)

/-- How many worker goroutines a `NewWeaver` call has started when it
returns: none on the error path (it returns before the `go` loop). -/
def startedWorkers : Except Err Weaver → Nat
  | .error _ => 0
  | .ok w => w.workers.length

/-- The possible results of `w.Add(task)` invoked against state `s`.
`accepted` is the send completing (after blocking while the open queue is
full); `errClosed` is the `isClosed.Load()` branch, value
`"weave: weaver is closed"`; `errRecovered` is the panic of a send on the
closed `taskQueue`, recovered by `Add`'s deferred handler into the value
`"weave: cannot add task to closed weaver"` — `Add` never lets the panic
reach its caller. -/
inductive AddResult
  | accepted
  | errClosed
  | errRecovered
deriving DecidableEq, Repr

/-- `w.Add(task)` against state `s`. -/
def Weaver.Add (s : Weaver) : AddResult :=
  if s.isClosed then .errClosed
  else if s.qClosed then .errRecovered
  else .accepted

/-- Draining has begun: some `Wait` caller has won the `CompareAndSwap`
(and is past it), or the task queue is already closed. -/
def Weaver.drainingBegun (s : Weaver) : Bool :=
  s.qClosed || s.waiters.any WaitPc.isWinnerPhase

/-! ## Lemmas about the failure slot -/

theorem OnceChan.sendErr_of_used {c : OnceChan} (e : Err) (h : c.used = true) :
    c.sendErr e = c := by
  simp [OnceChan.sendErr, h]

theorem OnceChan.record_of_used {c : OnceChan} (t : Outcome) (h : c.used = true) :
    c.record t = c := by
  cases t <;> simp [OnceChan.record, OnceChan.sendErr_of_used _ h]

theorem OnceChan.foldl_sendErr_of_used {c : OnceChan} (es : List Err)
    (h : c.used = true) : es.foldl OnceChan.sendErr c = c := by
  induction es with
  | nil => rfl
  | cons e es ih => simp [List.foldl_cons, OnceChan.sendErr_of_used e h, ih]

theorem OnceChan.record_used_mono {c : OnceChan} (t : Outcome)
    (h : c.used = true) : (c.record t).used = true := by
  rw [OnceChan.record_of_used t h]; exact h

/-- Along one Sail step, a fired slot stays fired and its buffered value is
never replaced by a different one (it can only be received away). -/
theorem sail_step_buf_stable {cb : Bool} {s s' : SailState}
    (hstep : SailStep cb s s') (h : s.errChan.used = true) :
    s'.errChan.used = true
    ∧ (s'.errChan.buf = s.errChan.buf ∨ s'.errChan.buf = none) := by
  cases hstep <;>
    simp_all [OnceChan.record_of_used]

/-- Any slot state reachable in Sail has `buf` set only if the `once` fired. -/
theorem sail_step_bufinv {cb : Bool} {s s' : SailState}
    (hstep : SailStep cb s s')
    (h : ∀ e, s.errChan.buf = some e → s.errChan.used = true) :
    ∀ e, s'.errChan.buf = some e → s'.errChan.used = true := by
  cases hstep with
  | complete hr =>
      intro e
      rename_i t _
      simp only [OnceChan.record]
      cases t with
      | ok => exact h e
      | fail e' =>
          simp only [OnceChan.sendErr]
          split
          · intro hb; exact h e hb
          · intro _; rfl
      | panicked p =>
          simp only [OnceChan.sendErr]
          split
          · intro hb; exact h e hb
          · intro _; rfl
  | _ => simp_all

theorem sail_reach_bufinv {cb : Bool} {tasks : List Outcome} {s : SailState}
    (h : SailReach cb (SailState.init tasks) s) :
    ∀ e, s.errChan.buf = some e → s.errChan.used = true := by
  induction h with
  | refl => intro e he; simp [SailState.init, OnceChan.init] at he
  | tail _ hstep ih => exact sail_step_bufinv hstep ih

theorem sail_reach_buf_stable {cb : Bool} {s s' : SailState}
    (h : SailReach cb s s') (hu : s.errChan.used = true) :
    s'.errChan.used = true
    ∧ (s'.errChan.buf = s.errChan.buf ∨ s'.errChan.buf = none) := by
  induction h with
  | refl => exact ⟨hu, Or.inl rfl⟩
  | tail _ hstep ih =>
      obtain ⟨hu', hb'⟩ := ih
      obtain ⟨hu'', hb''⟩ := sail_step_buf_stable hstep hu'
      refine ⟨hu'', ?_⟩
      rcases hb'' with h2 | h2
      · rw [h2]; exact hb'
      · exact Or.inr h2

/-- Along one Weaver step, a fired slot stays fired and its buffered value
is never replaced by a different one. -/
theorem weaver_step_buf_stable {s s' : Weaver}
    (hstep : WeaverStep s s') (h : s.errChan.used = true) :
    s'.errChan.used = true
    ∧ (s'.errChan.buf = s.errChan.buf ∨ s'.errChan.buf = none) := by
  cases hstep <;>
    simp_all [OnceChan.record_of_used]

theorem weaver_step_bufinv {s s' : Weaver}
    (hstep : WeaverStep s s')
    (h : ∀ e, s.errChan.buf = some e → s.errChan.used = true) :
    ∀ e, s'.errChan.buf = some e → s'.errChan.used = true := by
  cases hstep with
  | finish hw =>
      intro e
      rename_i t
      simp only [OnceChan.record]
      cases t with
      | ok => exact h e
      | fail e' =>
          simp only [OnceChan.sendErr]
          split
          · intro hb; exact h e hb
          · intro _; rfl
      | panicked p =>
          simp only [OnceChan.sendErr]
          split
          · intro hb; exact h e hb
          · intro _; rfl
  | _ => simp_all

theorem weaver_reach_bufinv {c k : Nat} {s : Weaver}
    (h : WeaverReach (Weaver.init c k) s) :
    ∀ e, s.errChan.buf = some e → s.errChan.used = true := by
  induction h with
  | refl => intro e he; simp [Weaver.init, OnceChan.init] at he
  | tail _ hstep ih => exact weaver_step_bufinv hstep ih

theorem weaver_reach_buf_stable {s s' : Weaver}
    (h : WeaverReach s s') (hu : s.errChan.used = true) :
    s'.errChan.used = true
    ∧ (s'.errChan.buf = s.errChan.buf ∨ s'.errChan.buf = none) := by
  induction h with
  | refl => exact ⟨hu, Or.inl rfl⟩
  | tail _ hstep ih =>
      obtain ⟨hu', hb'⟩ := ih
      obtain ⟨hu'', hb''⟩ := weaver_step_buf_stable hstep hu'
      refine ⟨hu'', ?_⟩
      rcases hb'' with h2 | h2
      · rw [h2]; exact hb'
      · exact Or.inr h2

/-- C9: `NewWeaver` fails exactly for concurrency ≤ 0; the error path starts
no worker, the success path returns the initialized pool with exactly
`concurrency` workers started. -/
theorem newWeaver_validates_concurrency (concurrency : Int) (k : Nat) :
    ((NewWeaver concurrency k).isOk = true ↔ 0 < concurrency)
    ∧ (concurrency ≤ 0 →
        NewWeaver concurrency k
          = .error "weave: concurrency must be greater than 0"
        ∧ startedWorkers (NewWeaver concurrency k) = 0)
    ∧ (0 < concurrency →
        NewWeaver concurrency k = .ok (Weaver.init concurrency.toNat k)
        ∧ startedWorkers (NewWeaver concurrency k) = concurrency.toNat
        ∧ (Weaver.init concurrency.toNat k).workers.length
            = concurrency.toNat) := by
  refine ⟨?_, fun hle => ?_, fun hpos => ?_⟩
  · by_cases hc : concurrency ≤ 0
    · simp only [NewWeaver, hc, reduceIte, Except.isOk, Except.toBool]
      constructor
      · intro hb; cases hb
      · intro hp; omega
    · simp only [NewWeaver, hc, reduceIte, Except.isOk, Except.toBool]
      constructor
      · intro _; omega
      · intro _; trivial
  · simp [NewWeaver, hle, startedWorkers]
  · have hnle : ¬ concurrency ≤ 0 := by omega
    simp [NewWeaver, hnle, startedWorkers, Weaver.init]

/-- C6: the failure slot is single-assignment in both Sail and Weaver — the
first `sendErr` wins, later writes are discarded no-ops, and in any run of
either model a buffered failure value is never replaced by a different one
(it can only be received away by a reader). -/
theorem failure_slot_first_write_wins :
    (∀ (e : Err) (es : List Err),
        ((e :: es).foldl OnceChan.sendErr OnceChan.init).buf = some e
        ∧ ((e :: es).foldl OnceChan.sendErr OnceChan.init).used = true)
    ∧ (∀ (c : OnceChan) (e : Err), c.used = true → c.sendErr e = c)
    ∧ (∀ (cb : Bool) (tasks : List Outcome) (s s' : SailState) (e : Err),
        SailReach cb (SailState.init tasks) s → SailReach cb s s' →
        s.errChan.buf = some e →
        s'.errChan.buf = some e ∨ s'.errChan.buf = none)
    ∧ (∀ (c k : Nat) (s s' : Weaver) (e : Err),
        WeaverReach (Weaver.init c k) s → WeaverReach s s' →
        s.errChan.buf = some e →
        s'.errChan.buf = some e ∨ s'.errChan.buf = none) := by
  refine ⟨fun e es => ?_, fun c e h => OnceChan.sendErr_of_used e h,
    fun cb tasks s s' e h1 h2 hb => ?_, fun c k s s' e h1 h2 hb => ?_⟩
  · have : OnceChan.init.sendErr e = ⟨true, some e, false⟩ := rfl
    rw [List.foldl_cons, this, OnceChan.foldl_sendErr_of_used es rfl]
    exact ⟨rfl, rfl⟩
  · have hu := sail_reach_bufinv h1 e hb
    have := (sail_reach_buf_stable h2 hu).2
    rw [hb] at this
    exact this
  · have hu := weaver_reach_bufinv h1 e hb
    have := (weaver_reach_buf_stable h2 hu).2
    rw [hb] at this
    exact this

/-- In a run of `Sail` on no tasks with a never-canceled context, nothing is
ever dispatched or recorded and the only possible return value is nil. -/
theorem sail_empty_inv {s : SailState}
    (h : SailReach false (SailState.init []) s) :
    s.pending = [] ∧ s.running = [] ∧ s.errChan.buf = none
    ∧ s.canceled = false ∧ (s.ret = none ∨ s.ret = some none) := by
  induction h with
  | refl => simp [SailState.init, OnceChan.init]
  | tail _ hstep ih =>
      obtain ⟨hp, hr, hb, hc, hret⟩ := ih
      cases hstep <;> simp_all [OnceChan.record]

/-- C10: `Sail` on an empty task list with a non-canceled context returns
success (nil), never a failure, and such a terminating run exists. -/
theorem sail_empty_tasklist_succeeds :
    (∀ (s : SailState) (r : Option Err),
        SailReach false (SailState.init []) s → s.ret = some r → r = none)
    ∧ (∃ s : SailState,
        SailReach false (SailState.init []) s ∧ s.ret = some none) := by
  constructor
  · intro s r h hret
    obtain ⟨-, -, -, -, hor⟩ := sail_empty_inv h
    rcases hor with h0 | h0 <;> simp_all
  · refine ⟨⟨[], [], ⟨false, none, true⟩, false, some none⟩, ?_, rfl⟩
    have h1 : SailStep false (SailState.init [])
        ⟨[], [], ⟨false, none, true⟩, false, none⟩ :=
      SailStep.closeChan rfl rfl rfl
    have h2 : SailStep false ⟨[], [], ⟨false, none, true⟩, false, none⟩
        ⟨[], [], ⟨false, none, true⟩, false, some none⟩ :=
      SailStep.resolveClosed rfl rfl rfl rfl
    exact Relation.ReflTransGen.head h1 (Relation.ReflTransGen.head h2 .refl)

/-- If the context was already canceled when `Sail` started its dispatch
loop, every task is skipped: nothing runs and nothing is recorded. -/
theorem sail_cancelfirst_inv {tasks : List Outcome} {s : SailState}
    (h : SailReach true { SailState.init tasks with canceled := true } s) :
    s.canceled = true ∧ s.running = [] ∧ s.errChan.used = false
    ∧ s.errChan.buf = none := by
  induction h with
  | refl => simp [SailState.init, OnceChan.init]
  | tail _ hstep ih =>
      obtain ⟨hc, hr, hu, hb⟩ := ih
      cases hstep <;> simp_all [OnceChan.record]

/-- C3 (code bug): with cancellation fired before any dispatch, no task is
ever executed — but `Sail` does not always return the cancellation failure:
the skipped tasks make `wg.Wait` return at once, `errChan` is closed, and
the final `select` may take the `<-errChan` case and return nil (success).
The trace below ends with return value `some none`, i.e. a nil error. -/
theorem sail_early_cancel_can_return_success :
    (∀ (tasks : List Outcome) (s : SailState),
        SailReach true { SailState.init tasks with canceled := true } s →
        s.running = [] ∧ s.errChan.used = false)
    ∧ (∃ s : SailState,
        SailReach true { SailState.init [.ok] with canceled := true } s
        ∧ s.ret = some none) := by
  constructor
  · intro tasks s h
    obtain ⟨-, hr, hu, -⟩ := sail_cancelfirst_inv h
    exact ⟨hr, hu⟩
  · refine ⟨⟨[], [], ⟨false, none, true⟩, true, some none⟩, ?_, rfl⟩
    have h1 : SailStep true ⟨[Outcome.ok], [], ⟨false, none, false⟩, true, none⟩
        ⟨[], [], ⟨false, none, false⟩, true, none⟩ :=
      SailStep.skip rfl rfl
    have h2 : SailStep true ⟨[], [], ⟨false, none, false⟩, true, none⟩
        ⟨[], [], ⟨false, none, true⟩, true, none⟩ :=
      SailStep.closeChan rfl rfl rfl
    have h3 : SailStep true ⟨[], [], ⟨false, none, true⟩, true, none⟩
        ⟨[], [], ⟨false, none, true⟩, true, some none⟩ :=
      SailStep.resolveClosed rfl rfl rfl rfl
    exact Relation.ReflTransGen.head h1
      (Relation.ReflTransGen.head h2 (Relation.ReflTransGen.head h3 .refl))

/-- C1 (code bug): a run of `Sail` on one failing task in which the failure
`"boom"` is recorded in the slot while the context is not yet canceled, and
which nevertheless returns the cancellation failure: cancellation fires
after the recording, and the final `select`, with both cases ready, may take
`<-ctx.Done()`. -/
theorem sail_cancellation_can_mask_recorded_failure :
    ∃ m f : SailState,
      SailReach true (SailState.init [.fail "boom"]) m
      ∧ m.errChan.buf = some "boom" ∧ m.canceled = false
      ∧ SailReach true m f
      ∧ f.ret = some (some ctxCanceledErr)
      ∧ ctxCanceledErr ≠ "boom" := by
  refine ⟨⟨[], [], ⟨true, some "boom", false⟩, false, none⟩,
    ⟨[], [], ⟨true, some "boom", false⟩, true, some (some ctxCanceledErr)⟩,
    ?_, rfl, rfl, ?_, rfl, by decide⟩
  · have h1 : SailStep true (SailState.init [.fail "boom"])
        ⟨[], [Outcome.fail "boom"], ⟨false, none, false⟩, false, none⟩ :=
      SailStep.dispatch rfl rfl
    have h2 : SailStep true
        ⟨[], [Outcome.fail "boom"], ⟨false, none, false⟩, false, none⟩
        ⟨[], [], ⟨true, some "boom", false⟩, false, none⟩ :=
      SailStep.complete (a := []) (t := Outcome.fail "boom") (b := []) rfl
    exact Relation.ReflTransGen.head h1 (Relation.ReflTransGen.head h2 .refl)
  · have h3 : SailStep true ⟨[], [], ⟨true, some "boom", false⟩, false, none⟩
        ⟨[], [], ⟨true, some "boom", false⟩, true, none⟩ :=
      SailStep.cancel rfl rfl
    have h4 : SailStep true ⟨[], [], ⟨true, some "boom", false⟩, true, none⟩
        ⟨[], [], ⟨true, some "boom", false⟩, true, some (some ctxCanceledErr)⟩ :=
      SailStep.resolveCancel rfl rfl rfl
    exact Relation.ReflTransGen.head h3 (Relation.ReflTransGen.head h4 .refl)

/-- The complete state space of a `Sail` run on one panicking task under a
never-canceled context: dispatch, completion (recording the recovered
panic), channel close and resolution, in every interleaving. -/
theorem sail_single_panic_inv (p : String) {s : SailState}
    (h : SailReach false (SailState.init [.panicked p]) s) :
    s = ⟨[.panicked p], [], ⟨false, none, false⟩, false, none⟩
    ∨ s = ⟨[], [.panicked p], ⟨false, none, false⟩, false, none⟩
    ∨ s = ⟨[], [], ⟨true, some (panicMsg p), false⟩, false, none⟩
    ∨ s = ⟨[], [], ⟨true, some (panicMsg p), true⟩, false, none⟩
    ∨ s = ⟨[], [], ⟨true, none, false⟩, false, some (some (panicMsg p))⟩
    ∨ s = ⟨[], [], ⟨true, none, true⟩, false, some (some (panicMsg p))⟩ := by
  induction h with
  | refl => left; rfl
  | tail _ hstep ih =>
      rcases ih with rfl | rfl | rfl | rfl | rfl | rfl <;>
        cases hstep <;>
        simp_all [OnceChan.record, OnceChan.sendErr,
          List.append_eq_cons_iff, List.cons_eq_append_iff]

/-- C7: a panicking task never crashes the orchestrator.  In Sail, the run
on a panicking task still resolves, and every resolution returns the
recovered-panic failure, whose text is the fixed prefix
`"panic recovered: "` followed by the panic payload.  In Weaver, a worker
executing a panicking task takes an ordinary completion step that records
the same failure and returns to its loop. -/
theorem panics_become_flagged_failures :
    (∀ (p : String) (s : SailState) (r : Option Err),
        SailReach false (SailState.init [.panicked p]) s → s.ret = some r →
        r = some (panicMsg p))
    ∧ (∀ p : String, ∃ s : SailState,
        SailReach false (SailState.init [.panicked p]) s
        ∧ s.ret = some (some (panicMsg p)))
    ∧ (∀ p : String, ∃ a : String,
        panicMsg p = "panic recovered: " ++ a ∧ a = p)
    ∧ (∀ (s : Weaver) (i : Nat) (p : String),
        s.workers[i]? = some (.run (.panicked p)) → s.errChan.used = false →
        ∃ s' : Weaver, WeaverStep s s' ∧ s'.errChan.buf = some (panicMsg p)
          ∧ s'.workers[i]? = some .idle) := by
  refine ⟨fun p s r h hret => ?_, fun p => ?_, fun p => ⟨p, rfl, rfl⟩,
    fun s i p hw hu => ?_⟩
  · rcases sail_single_panic_inv p h with rfl | rfl | rfl | rfl | rfl | rfl <;>
      simp_all
  · refine ⟨⟨[], [], ⟨true, none, false⟩, false, some (some (panicMsg p))⟩,
      ?_, rfl⟩
    have h1 : SailStep false (SailState.init [.panicked p])
        ⟨[], [Outcome.panicked p], ⟨false, none, false⟩, false, none⟩ :=
      SailStep.dispatch rfl rfl
    have h2 : SailStep false
        ⟨[], [Outcome.panicked p], ⟨false, none, false⟩, false, none⟩
        ⟨[], [], ⟨true, some (panicMsg p), false⟩, false, none⟩ :=
      SailStep.complete (a := []) (t := Outcome.panicked p) (b := []) rfl
    have h3 : SailStep false
        ⟨[], [], ⟨true, some (panicMsg p), false⟩, false, none⟩
        ⟨[], [], ⟨true, none, false⟩, false, some (some (panicMsg p))⟩ :=
      SailStep.resolveErr rfl rfl rfl
    exact Relation.ReflTransGen.head h1
      (Relation.ReflTransGen.head h2 (Relation.ReflTransGen.head h3 .refl))
  · refine ⟨{ s with
                workers := s.workers.set i WPhase.idle
                errChan := s.errChan.record (Outcome.panicked p) },
      WeaverStep.finish hw, ?_, ?_⟩
    · simp [OnceChan.record, OnceChan.sendErr, hu]
    · have hlt : i < s.workers.length := (List.getElem?_eq_some.mp hw).1
      simp [List.getElem?_set_eq_of_lt _ hlt]

/-! ## Lemmas about the Weaver's lifecycle -/

theorem weaver_step_workers_length {s s' : Weaver} (h : WeaverStep s s') :
    s'.workers.length = s.workers.length := by
  cases h <;> simp [List.length_set]

theorem weaver_reach_workers_length {s s' : Weaver} (h : WeaverReach s s') :
    s'.workers.length = s.workers.length := by
  induction h with
  | refl => rfl
  | tail _ hstep ih => rw [weaver_step_workers_length hstep, ih]

theorem any_winner_of_set {l : List WaitPc} {j : Nat} {p : WaitPc}
    (h : (l.set j p).any WaitPc.isWinnerPhase = true)
    (hp : WaitPc.isWinnerPhase p = false) :
    l.any WaitPc.isWinnerPhase = true := by
  rw [List.any_eq_true] at h ⊢
  obtain ⟨x, hx, hpx⟩ := h
  rcases List.mem_or_eq_of_mem_set hx with hx' | rfl
  · exact ⟨x, hx', hpx⟩
  · rw [hp] at hpx; cases hpx

theorem any_winner_of_getElem {l : List WaitPc} {j : Nat} {p : WaitPc}
    (h : l[j]? = some p) (hp : WaitPc.isWinnerPhase p = true) :
    l.any WaitPc.isWinnerPhase = true := by
  rw [List.any_eq_true]
  exact ⟨p, List.getElem?_mem h, hp⟩

/-- Reachable invariant: once the queue is closed, or once any `Wait` caller
is in (or past) a shutdown phase, `isClosed` is `true` — the winning
`CompareAndSwap` precedes every shutdown action. -/
theorem weaver_drain_isClosed_inv {c k : Nat} {s : Weaver}
    (h : WeaverReach (Weaver.init c k) s) :
    (s.qClosed = true → s.isClosed = true)
    ∧ (s.waiters.any WaitPc.isWinnerPhase = true → s.isClosed = true) := by
  induction h with
  | refl =>
      constructor
      · intro hq; simp [Weaver.init] at hq
      · intro ha
        rw [List.any_eq_true] at ha
        obtain ⟨x, hx, hpx⟩ := ha
        have hx2 : x = WaitPc.entry := by
          have hmem : x ∈ List.replicate k WaitPc.entry := hx
          exact (List.mem_replicate.mp hmem).2
        rw [hx2] at hpx
        cases hpx
  | tail _ hstep ih =>
      obtain ⟨ihq, ihw⟩ := ih
      cases hstep with
      | submit t h1 h2 => exact ⟨ihq, ihw⟩
      | pull h1 h2 => exact ⟨ihq, ihw⟩
      | exitClose h1 h2 h3 => exact ⟨ihq, ihw⟩
      | exitCancel h1 h2 => exact ⟨ihq, ihw⟩
      | beginExec h1 h2 => exact ⟨ihq, ihw⟩
      | dropTask h1 h2 => exact ⟨ihq, ihw⟩
      | finish h1 => exact ⟨ihq, ihw⟩
      | parentCancel h1 => exact ⟨ihq, ihw⟩
      | waitLose h1 h2 => exact ⟨fun _ => h2, fun _ => h2⟩
      | waitWin h1 h2 => exact ⟨fun _ => rfl, fun _ => rfl⟩
      | loseRecvBuf h1 h2 =>
          exact ⟨ihq, fun ha => ihw (any_winner_of_set ha rfl)⟩
      | loseRecvClosed h1 h2 h3 =>
          exact ⟨ihq, fun ha => ihw (any_winner_of_set ha rfl)⟩
      | winCloseQ h1 =>
          have hic := ihw (any_winner_of_getElem h1 rfl)
          exact ⟨fun _ => hic, fun _ => hic⟩
      | winWgWait h1 h2 =>
          have hic := ihw (any_winner_of_getElem h1 rfl)
          exact ⟨fun _ => hic, fun _ => hic⟩
      | winDrainSome h1 h2 =>
          have hic := ihw (any_winner_of_getElem h1 rfl)
          exact ⟨fun _ => hic, fun _ => hic⟩
      | winDrainNone h1 h2 =>
          have hic := ihw (any_winner_of_getElem h1 rfl)
          exact ⟨fun _ => hic, fun _ => hic⟩

/-- C4: against any reachable state in which draining has begun, `Add`
returns the closed-pool error at once — its `isClosed.Load()` check fires,
so it neither blocks on the queue nor reaches the panicking send (and its
deferred recover means no panic can escape to the caller in any case). -/
theorem add_after_drain_fails_with_closed_error (c k : Nat) (s : Weaver)
    (h : WeaverReach (Weaver.init c k) s) (hd : s.drainingBegun = true) :
    Weaver.Add s = AddResult.errClosed := by
  have hic : s.isClosed = true := by
    obtain ⟨ihq, ihw⟩ := weaver_drain_isClosed_inv h
    rw [Weaver.drainingBegun, Bool.or_eq_true] at hd
    rcases hd with hq | hw
    · exact ihq hq
    · exact ihw hw
  simp [Weaver.Add, hic]

theorem add_after_drain_fails_with_closed_error_witness :
    Weaver.Add ⟨1, [WPhase.idle], [], false, ⟨false, none, false⟩, true,
      false, none, [WaitPc.closeQ]⟩ = AddResult.errClosed :=
  add_after_drain_fails_with_closed_error 1 1 _
    (Relation.ReflTransGen.head (WeaverStep.waitWin (j := 0) rfl rfl)
      Relation.ReflTransGen.refl)
    (by decide)

/-- C5: a Weaver built with concurrency `c` starts exactly `c` workers, and
in every reachable state the number of workers inside a task invocation —
each worker runs at most one task at a time — is at most `c`. -/
theorem weaver_concurrency_ceiling (c k : Nat) (s : Weaver)
    (h : WeaverReach (Weaver.init c k) s) :
    (Weaver.init c k).workers.length = c
    ∧ (s.workers.filter WPhase.isRun).length ≤ c := by
  have hlen : s.workers.length = c := by
    rw [weaver_reach_workers_length h]
    simp [Weaver.init]
  exact ⟨by simp [Weaver.init],
    le_of_le_of_eq (List.length_filter_le _ _) hlen⟩

theorem weaver_concurrency_ceiling_witness :
    (Weaver.init 2 1).workers.length = 2
    ∧ ((Weaver.init 2 1).workers.filter WPhase.isRun).length ≤ 2 :=
  weaver_concurrency_ceiling 2 1 (Weaver.init 2 1) Relation.ReflTransGen.refl

/-- Cancellation is monotone: no step resets a fired `workerCtx.Done()`. -/
theorem weaver_step_cancel_mono {s s' : Weaver} (h : WeaverStep s s')
    (hc : s.canceled = true) : s'.canceled = true := by
  cases h <;> simp_all

theorem weaver_reach_cancel_mono {s s' : Weaver} (h : WeaverReach s s')
    (hc : s.canceled = true) : s'.canceled = true := by
  induction h with
  | refl => exact hc
  | tail _ hstep ih => exact weaver_step_cancel_mono hstep ih

/-- C8 (amended): from any state where cancellation has fired, no step taken
later ever moves a worker from holding a task to executing it — `execute`'s
cancellation check discards the task — and a worker already inside a task
invocation always retains its completion step (recording the task's outcome
and returning to its loop); it is never interrupted. -/
theorem no_task_begins_after_cancellation (s t u : Weaver)
    (hc : s.canceled = true) (hst : WeaverReach s t) (htu : WeaverStep t u) :
    (∀ (i : Nat) (o : Outcome),
        t.workers[i]? = some (WPhase.got o) →
        u.workers[i]? ≠ some (WPhase.run o))
    ∧ (∀ (i : Nat) (o : Outcome), t.workers[i]? = some (WPhase.run o) →
        ∃ v : Weaver, WeaverStep t v ∧ v.workers[i]? = some WPhase.idle
          ∧ v.errChan = t.errChan.record o) := by
  have hct : t.canceled = true := weaver_reach_cancel_mono hst hc
  constructor
  · intro i o hgot
    cases htu with
    | submit t' h1 h2 => simp [hgot]
    | pull h1 h2 =>
        rename_i i' t' rest
        by_cases hij : i' = i
        · subst hij; rw [h1] at hgot; simp at hgot
        · simp [List.getElem?_set_ne hij, hgot]
    | exitClose h1 h2 h3 =>
        rename_i i'
        by_cases hij : i' = i
        · subst hij; rw [h1] at hgot; simp at hgot
        · simp [List.getElem?_set_ne hij, hgot]
    | exitCancel h1 h2 =>
        rename_i i'
        by_cases hij : i' = i
        · subst hij; rw [h1] at hgot; simp at hgot
        · simp [List.getElem?_set_ne hij, hgot]
    | beginExec h1 h2 => simp [hct] at h2
    | dropTask h1 h2 =>
        rename_i i' t'
        by_cases hij : i' = i
        · subst hij
          have hlt := (List.getElem?_eq_some.mp h1).1
          simp [List.getElem?_set_eq_of_lt _ hlt]
        · simp [List.getElem?_set_ne hij, hgot]
    | finish h1 =>
        rename_i i' t'
        by_cases hij : i' = i
        · subst hij; rw [h1] at hgot; simp at hgot
        · simp [List.getElem?_set_ne hij, hgot]
    | parentCancel h1 => simp [hgot]
    | waitLose h1 h2 => simp [hgot]
    | waitWin h1 h2 => simp [hgot]
    | loseRecvBuf h1 h2 => simp [hgot]
    | loseRecvClosed h1 h2 h3 => simp [hgot]
    | winCloseQ h1 => simp [hgot]
    | winWgWait h1 h2 => simp [hgot]
    | winDrainSome h1 h2 => simp [hgot]
    | winDrainNone h1 h2 => simp [hgot]
  · intro i o hrun
    refine ⟨{ t with
                workers := t.workers.set i WPhase.idle
                errChan := t.errChan.record o },
      WeaverStep.finish hrun, ?_, rfl⟩
    have hlt : i < t.workers.length := (List.getElem?_eq_some.mp hrun).1
    simp [List.getElem?_set_eq_of_lt _ hlt]

theorem no_task_begins_after_cancellation_witness :
    (∀ (i : Nat) (o : Outcome),
        (⟨1, [WPhase.idle], [Outcome.ok], false, ⟨false, none, false⟩, false,
          true, none, [WaitPc.entry]⟩ : Weaver).workers[i]?
            = some (WPhase.got o) →
        (⟨1, [WPhase.got Outcome.ok], [], false, ⟨false, none, false⟩, false,
          true, none, [WaitPc.entry]⟩ : Weaver).workers[i]?
            ≠ some (WPhase.run o))
    ∧ (∀ (i : Nat) (o : Outcome),
        (⟨1, [WPhase.idle], [Outcome.ok], false, ⟨false, none, false⟩, false,
          true, none, [WaitPc.entry]⟩ : Weaver).workers[i]?
            = some (WPhase.run o) →
        ∃ v : Weaver,
          WeaverStep ⟨1, [WPhase.idle], [Outcome.ok], false,
            ⟨false, none, false⟩, false, true, none, [WaitPc.entry]⟩ v
          ∧ v.workers[i]? = some WPhase.idle
          ∧ v.errChan = (⟨false, none, false⟩ : OnceChan).record o) :=
  no_task_begins_after_cancellation
    ⟨1, [WPhase.idle], [Outcome.ok], false, ⟨false, none, false⟩, false,
      true, none, [WaitPc.entry]⟩
    ⟨1, [WPhase.idle], [Outcome.ok], false, ⟨false, none, false⟩, false,
      true, none, [WaitPc.entry]⟩
    ⟨1, [WPhase.got Outcome.ok], [], false, ⟨false, none, false⟩, false,
      true, none, [WaitPc.entry]⟩
    rfl Relation.ReflTransGen.refl (WeaverStep.pull (i := 0) rfl rfl)

/-- C8 (counterexample to the claim as stated): a reachable state in which
cancellation has fired and the queue still holds an item, from which a
worker nevertheless pulls that item — the worker-loop `select` does not
prioritize `<-ctx.Done()` over the queue case. -/
theorem worker_can_pull_after_cancellation :
    ∃ s u : Weaver,
      WeaverReach (Weaver.init 1 1) s
      ∧ s.canceled = true ∧ s.queue = [Outcome.ok]
      ∧ s.workers = [WPhase.idle]
      ∧ WeaverStep s u
      ∧ u.workers = [WPhase.got Outcome.ok] ∧ u.queue = [] := by
  refine ⟨⟨1, [WPhase.idle], [Outcome.ok], false, ⟨false, none, false⟩,
      false, true, none, [WaitPc.entry]⟩,
    ⟨1, [WPhase.got Outcome.ok], [], false, ⟨false, none, false⟩,
      false, true, none, [WaitPc.entry]⟩,
    ?_, rfl, rfl, rfl, WeaverStep.pull (i := 0) rfl rfl, rfl, rfl⟩
  have h1 : WeaverStep (Weaver.init 1 1)
      ⟨1, [WPhase.idle], [Outcome.ok], false, ⟨false, none, false⟩,
        false, false, none, [WaitPc.entry]⟩ :=
    WeaverStep.submit Outcome.ok rfl (by decide)
  have h2 : WeaverStep
      ⟨1, [WPhase.idle], [Outcome.ok], false, ⟨false, none, false⟩,
        false, false, none, [WaitPc.entry]⟩
      ⟨1, [WPhase.idle], [Outcome.ok], false, ⟨false, none, false⟩,
        false, true, none, [WaitPc.entry]⟩ :=
    WeaverStep.parentCancel rfl
  exact Relation.ReflTransGen.head h1 (Relation.ReflTransGen.head h2 .refl)

/-- C2 (code bug): a run of `Weaver` with concurrency 1 and two concurrent
`Wait` callers in which a task's failure `"boom"` is recorded in the slot,
yet both callers return nil: the losing caller's bare `<-w.errChan` receives
(and so removes) the buffered failure before the winner's draining `select`,
which then hits `default` and leaves `finalErr` nil for everyone. -/
theorem wait_callers_can_lose_recorded_failure :
    ∃ mid fin : Weaver,
      WeaverReach (Weaver.init 1 2) mid
      ∧ mid.errChan.buf = some "boom" ∧ mid.errChan.used = true
      ∧ WeaverReach mid fin
      ∧ fin.errChan.used = true
      ∧ fin.waiters = [WaitPc.won none, WaitPc.lost none] := by
  refine ⟨⟨1, [WPhase.idle], [], false, ⟨true, some "boom", false⟩, false,
      false, none, [WaitPc.entry, WaitPc.entry]⟩,
    ⟨1, [WPhase.exited], [], true, ⟨true, none, true⟩, true,
      true, none, [WaitPc.won none, WaitPc.lost none]⟩,
    ?_, rfl, rfl, ?_, rfl, rfl⟩
  · have h1 : WeaverStep (Weaver.init 1 2)
        ⟨1, [WPhase.idle], [Outcome.fail "boom"], false,
          ⟨false, none, false⟩, false, false, none,
          [WaitPc.entry, WaitPc.entry]⟩ :=
      WeaverStep.submit (Outcome.fail "boom") rfl (by decide)
    have h2 : WeaverStep
        ⟨1, [WPhase.idle], [Outcome.fail "boom"], false,
          ⟨false, none, false⟩, false, false, none,
          [WaitPc.entry, WaitPc.entry]⟩
        ⟨1, [WPhase.got (Outcome.fail "boom")], [], false,
          ⟨false, none, false⟩, false, false, none,
          [WaitPc.entry, WaitPc.entry]⟩ :=
      WeaverStep.pull (i := 0) rfl rfl
    have h3 : WeaverStep
        ⟨1, [WPhase.got (Outcome.fail "boom")], [], false,
          ⟨false, none, false⟩, false, false, none,
          [WaitPc.entry, WaitPc.entry]⟩
        ⟨1, [WPhase.run (Outcome.fail "boom")], [], false,
          ⟨false, none, false⟩, false, false, none,
          [WaitPc.entry, WaitPc.entry]⟩ :=
      WeaverStep.beginExec (i := 0) rfl rfl
    have h4 : WeaverStep
        ⟨1, [WPhase.run (Outcome.fail "boom")], [], false,
          ⟨false, none, false⟩, false, false, none,
          [WaitPc.entry, WaitPc.entry]⟩
        ⟨1, [WPhase.idle], [], false, ⟨true, some "boom", false⟩, false,
          false, none, [WaitPc.entry, WaitPc.entry]⟩ :=
      WeaverStep.finish (i := 0) (t := Outcome.fail "boom") rfl
    exact Relation.ReflTransGen.head h1 (Relation.ReflTransGen.head h2
      (Relation.ReflTransGen.head h3 (Relation.ReflTransGen.head h4 .refl)))
  · have h5 : WeaverStep
        ⟨1, [WPhase.idle], [], false, ⟨true, some "boom", false⟩, false,
          false, none, [WaitPc.entry, WaitPc.entry]⟩
        ⟨1, [WPhase.idle], [], false, ⟨true, some "boom", false⟩, true,
          false, none, [WaitPc.closeQ, WaitPc.entry]⟩ :=
      WeaverStep.waitWin (j := 0) rfl rfl
    have h6 : WeaverStep
        ⟨1, [WPhase.idle], [], false, ⟨true, some "boom", false⟩, true,
          false, none, [WaitPc.closeQ, WaitPc.entry]⟩
        ⟨1, [WPhase.idle], [], true, ⟨true, some "boom", false⟩, true,
          false, none, [WaitPc.wgWait, WaitPc.entry]⟩ :=
      WeaverStep.winCloseQ (j := 0) rfl
    have h7 : WeaverStep
        ⟨1, [WPhase.idle], [], true, ⟨true, some "boom", false⟩, true,
          false, none, [WaitPc.wgWait, WaitPc.entry]⟩
        ⟨1, [WPhase.exited], [], true, ⟨true, some "boom", false⟩, true,
          false, none, [WaitPc.wgWait, WaitPc.entry]⟩ :=
      WeaverStep.exitClose (i := 0) rfl rfl rfl
    have h8 : WeaverStep
        ⟨1, [WPhase.exited], [], true, ⟨true, some "boom", false⟩, true,
          false, none, [WaitPc.wgWait, WaitPc.entry]⟩
        ⟨1, [WPhase.exited], [], true, ⟨true, some "boom", false⟩, true,
          false, none, [WaitPc.drainSel, WaitPc.entry]⟩ :=
      WeaverStep.winWgWait (j := 0) rfl (by decide)
    have h9 : WeaverStep
        ⟨1, [WPhase.exited], [], true, ⟨true, some "boom", false⟩, true,
          false, none, [WaitPc.drainSel, WaitPc.entry]⟩
        ⟨1, [WPhase.exited], [], true, ⟨true, some "boom", false⟩, true,
          false, none, [WaitPc.drainSel, WaitPc.recvWait]⟩ :=
      WeaverStep.waitLose (j := 1) rfl rfl
    have h10 : WeaverStep
        ⟨1, [WPhase.exited], [], true, ⟨true, some "boom", false⟩, true,
          false, none, [WaitPc.drainSel, WaitPc.recvWait]⟩
        ⟨1, [WPhase.exited], [], true, ⟨true, none, false⟩, true,
          false, none, [WaitPc.drainSel, WaitPc.lost none]⟩ :=
      WeaverStep.loseRecvBuf (j := 1) rfl rfl
    have h11 : WeaverStep
        ⟨1, [WPhase.exited], [], true, ⟨true, none, false⟩, true,
          false, none, [WaitPc.drainSel, WaitPc.lost none]⟩
        ⟨1, [WPhase.exited], [], true, ⟨true, none, true⟩, true,
          true, none, [WaitPc.won none, WaitPc.lost none]⟩ :=
      WeaverStep.winDrainNone (j := 0) rfl rfl
    exact Relation.ReflTransGen.head h5 (Relation.ReflTransGen.head h6
      (Relation.ReflTransGen.head h7 (Relation.ReflTransGen.head h8
        (Relation.ReflTransGen.head h9 (Relation.ReflTransGen.head h10
          (Relation.ReflTransGen.head h11 .refl))))))

end Weave
